import Mathlib

/-!
Verification of the DMA-API to IOMMU-API glue layer (dma-iommu.c).

The definitions below are a shallow embedding of the C source.  Machine
integers are modelled as Nat with an explicit reduction modulo 2^32
(unsigned int, u32 fields) or 2^64 (u64, size_t, dma_addr_t on a 64-bit
configuration) at the points where the C code stores into a fixed-width
location or where C arithmetic can wrap.  External collaborators that are
not part of the translated source (the IOVA allocator of iova.c and the
backend iommu_map_sg / iommu_unmap / iommu_attach_device calls) are either
carried as explicit oracle parameters or modelled from the specification,
as indicated by their doc comments.
-/

/-- Width of an unsigned int (u32) value: 2^32. -/
def U32 : Nat := 2 ^ 32

/-- Width of a u64 / size_t / dma_addr_t value: 2^64. -/
def U64 : Nat := 2 ^ 64

/-- Error sentinel for DMA addresses; on the arm64 configuration this kernel
targets, DMA_ERROR_CODE is the all-ones dma_addr_t (definition taken from the
architecture header, which is not part of the translated source files). -/
def DMA_ERROR_CODE : Nat := U64 - 1

/-- Rounding a size up to a multiple of the granule 2^shift, the ALIGN /
iova_align computation of the source. -/
def iova_align (shift size : Nat) : Nat :=
  ((size + 2 ^ shift - 1) / 2 ^ shift) * 2 ^ shift

/-- Structural worker for the lowest-set-bit computation; the fuel only
bounds the recursion depth and n steps always suffice since the argument at
least halves. -/
def ffsGo : Nat → Nat → Nat
  | _, 0 => 0
  | n, fuel + 1 => if n % 2 = 1 ∨ n ≤ 1 then 0 else ffsGo (n / 2) fuel + 1

/-- Index of the lowest set bit of a bitmap, the __ffs helper used to pick
the IOVA granule order (the value at 0 is irrelevant: the source never calls
it on an empty page-size bitmap). -/
def __ffs (n : Nat) : Nat := ffsGo n n

/-! ## Protection flags (dma_direction_to_prot, source lines 185-199) -/

/-- IOMMU page protection flag for read access, value from the iommu.h
header of this kernel. -/
def IOMMU_READ : Nat := 1

/-- IOMMU page protection flag for write access. -/
def IOMMU_WRITE : Nat := 2

/-- IOMMU page protection flag for cache-coherent mappings. -/
def IOMMU_CACHE : Nat := 4

/-- DMA transfer directions of the dma_data_direction enum. -/
inductive DmaDataDirection where
  | DMA_BIDIRECTIONAL
  | DMA_TO_DEVICE
  | DMA_FROM_DEVICE
  | DMA_NONE
deriving DecidableEq, Repr

/-- Translation of DMA API directions to IOMMU API page flags, embedded from
dma_direction_to_prot (source lines 185-199). -/
def dma_direction_to_prot (dir : DmaDataDirection) (coherent : Bool) : Nat :=
  let prot := if coherent then IOMMU_CACHE else 0
  match dir with
  | .DMA_BIDIRECTIONAL => prot ||| IOMMU_READ ||| IOMMU_WRITE
  | .DMA_TO_DEVICE => prot ||| IOMMU_READ
  | .DMA_FROM_DEVICE => prot ||| IOMMU_WRITE
  | .DMA_NONE => 0

/-! ## Scatterlist model -/

/-- One scatterlist entry: the CPU-visible offset and length fields together
with the dma_address and dma_len fields that the mapping passes swizzle.
Offset, length and dma_len are u32 fields, dma_address is a u64 field; the
operations reduce stored values accordingly. -/
structure Sg where
  offset : Nat
  length : Nat
  dma_address : Nat
  dma_len : Nat
deriving DecidableEq, Repr

/-- In-place granule-aligning rewrite applied to one segment at the start of
iommu_dma_map_sg (source lines 503-514): the original offset and length are
parked in the dma fields, the offset is aligned down to the granule and the
length padded up to cover whole granules. -/
def sg_map_rewrite_seg (shift : Nat) (s : Sg) : Sg :=
  let s_offset := s.offset % 2 ^ shift
  { offset := s.offset - s_offset,
    length := iova_align shift (s.length + s_offset) % U32,
    dma_address := s.offset % U64,
    dma_len := s.length % U32 }

/-- The rewrite pass of iommu_dma_map_sg over the whole list. -/
def sg_map_rewrite (shift : Nat) (l : List Sg) : List Sg :=
  l.map (sg_map_rewrite_seg shift)

/-- Total padded length accumulated by the rewrite loop of iommu_dma_map_sg
(the iova_len variable, a size_t accumulator). -/
def sg_map_iova_len (shift : Nat) (l : List Sg) : Nat :=
  l.foldl (fun acc s =>
    (acc + iova_align shift (s.length + s.offset % 2 ^ shift)) % U64) 0

/-- Restoration applied to one segment by __invalidate_sg (source lines
472-485): offset and length come back from the shadow dma fields when those
hold a valid value, and the dma fields are reset to the error sentinel and
zero. -/
def __invalidate_sg_seg (s : Sg) : Sg :=
  let off := if s.dma_address ≠ DMA_ERROR_CODE then s.dma_address % U32 else s.offset
  let len := if s.dma_len ≠ 0 then s.dma_len else s.length
  { offset := off, length := len, dma_address := DMA_ERROR_CODE, dma_len := 0 }

/-- The invalidate pass of a failed iommu_dma_map_sg (source lines 472-485). -/
def __invalidate_sg (l : List Sg) : List Sg :=
  l.map __invalidate_sg_seg

/-- Resetting only the dma fields of a segment, the expected net effect of
rewrite followed by invalidate on a well-formed segment. -/
def sg_reset_dma (s : Sg) : Sg :=
  { s with dma_address := DMA_ERROR_CODE, dma_len := 0 }

/-! ## IOVA allocator and domain state -/

/-- State of one iova_domain: the granule order (iova_shift), the allocatable
pfn range [basePfn, endPfn] set up by init_iova_domain, and the list of live
allocated intervals (startPfn, lengthPfns). -/
structure IovaDomain where
  shift : Nat
  basePfn : Nat
  endPfn : Nat
  allocated : List (Nat × Nat)
deriving DecidableEq, Repr

/-- Granule of an iova_domain in bytes. -/
def IovaDomain.granule (d : IovaDomain) : Nat := 2 ^ d.shift

/-- Whether a candidate interval [pfn, pfn+len) is disjoint from every live
interval. -/
def fitsAt (allocated : List (Nat × Nat)) (pfn len : Nat) : Bool :=
  allocated.all fun iv => decide (pfn + len ≤ iv.1) || decide (iv.1 + iv.2 ≤ pfn)

/-- Linear search for the lowest free start pfn, beginning at the given pfn
and trying the given number of candidate starts. -/
def searchFree (allocated : List (Nat × Nat)) (len : Nat) : Nat → Nat → Option Nat
  | _, 0 => none
  | pfn, fuel + 1 =>
      if fitsAt allocated pfn len then some pfn
      else searchFree allocated len (pfn + 1) fuel

/-- Modelled from the spec: the IOVA allocator entry point alloc_iova lives in
drivers/iommu/iova.c, which is not among the translated source files.  Per the
specification it rounds the request to granules (done by the caller here),
searches for the lowest-address free region of sufficient size at or below the
address limit, reserves it and returns it, failing if no such region exists. -/
def alloc_iova (d : IovaDomain) (len limitPfn : Nat) : Option ((Nat × Nat) × IovaDomain) :=
  let hi := min d.endPfn limitPfn
  if len = 0 then none
  else if d.basePfn + len > hi + 1 then none
  else
    match searchFree d.allocated len d.basePfn (hi + 2 - (d.basePfn + len)) with
    | none => none
    | some pfn => some ((pfn, len), { d with allocated := (pfn, len) :: d.allocated })

/-- Modelled from the spec: find_iova (drivers/iommu/iova.c, not among the
translated sources) looks up the live interval containing the given pfn. -/
def find_iova (d : IovaDomain) (pfn : Nat) : Option (Nat × Nat) :=
  d.allocated.find? fun iv => decide (iv.1 ≤ pfn) && decide (pfn < iv.1 + iv.2)

/-- Modelled from the spec: __free_iova (drivers/iommu/iova.c, not among the
translated sources) returns a previously allocated interval to the free pool. -/
def __free_iova (d : IovaDomain) (iv : Nat × Nat) : IovaDomain :=
  { d with allocated := d.allocated.erase iv }

/-- Length in granule units that __alloc_iova (source lines 201-214) requests
from alloc_iova for a byte size: the size rounded up to the granule, shifted
down by the granule order. -/
def __alloc_iova_length (shift size : Nat) : Nat :=
  iova_align shift size >>> shift

/-- Page count PAGE_ALIGN(size) >> PAGE_SHIFT used by iommu_dma_alloc (source
line 333) and iommu_dma_free (source line 299); pshift is PAGE_SHIFT. -/
def iommu_dma_alloc_count (pshift size : Nat) : Nat :=
  iova_align pshift size >>> pshift

/-! ## Domain creation (iommu_dma_create_domain, source lines 58-124) -/

/-- Aperture geometry reported by the backend iommu_domain after
ops->domain_alloc. -/
structure IommuGeometry where
  force_aperture : Bool
  aperture_start : Nat
  aperture_end : Nat
deriving DecidableEq, Repr

/-- A created iommu_dma_domain: its iova_domain (init_iova_domain with granule
1 << order and the computed pfn range) and its kref count. -/
structure IommuDmaDomain where
  iovad : IovaDomain
  refcount : Nat
deriving DecidableEq, Repr

/-- Embedding of iommu_dma_create_domain (source lines 58-124).  The three
Boolean oracles stand for the success of the kzalloc of the domain structure,
of ops->domain_alloc and of the kzalloc of the iova_domain; pgsize_bitmap is
the backend page-size bitmap and geo the geometry the backend installed.
Arithmetic on base and size is u64. -/
def iommu_dma_create_domain (domStructOk domAllocOk iovadAllocOk : Bool)
    (pgsize_bitmap : Nat) (geo : IommuGeometry) (base size : Nat) :
    Option IommuDmaDomain :=
  if domStructOk = false then none
  else if domAllocOk = false then none
  else
    let order := __ffs pgsize_bitmap
    let base_pfn := max 1 (base >>> order)
    let end_pfn := (((base + size) % U64 + U64 - 1) % U64) >>> order
    if geo.force_aperture ∧
        (geo.aperture_end < base ∨ (base + size) % U64 ≤ geo.aperture_start) then
      none
    else
      let base_pfn := if geo.force_aperture then
          max base_pfn (geo.aperture_start >>> order) else base_pfn
      let end_pfn := if geo.force_aperture then
          min end_pfn (geo.aperture_end >>> order) else end_pfn
      if iovadAllocOk = false then none
      else some { iovad := { shift := order, basePfn := base_pfn,
                             endPfn := end_pfn, allocated := [] },
                  refcount := 1 }

/-! ## Device attach (iommu_dma_attach_device, source lines 146-155) -/

/-- Embedding of iommu_dma_attach_device.  The backend iommu_attach_device
result is the attachRet oracle (0 on success), domId identifies the domain
being attached, refcount is the domain kref before the call and devDomain the
device's recorded DMA domain before the call.  Returns the function result,
the domain kref after the call and the device's recorded domain after the
call. -/
def iommu_dma_attach_device (attachRet : Int) (domId : Nat) (refcount : Nat)
    (devDomain : Option Nat) : Int × Nat × Option Nat :=
  let refcount := refcount + 1
  if attachRet = 0 then (attachRet, refcount, some domId)
  else (attachRet, refcount, devDomain)

/-! ## Buffer allocation state (iommu_dma_alloc / iommu_dma_free) -/

/-- Observable state touched by buffer allocation: the iova_domain, the set of
live backend mappings (iova byte address, mapped bytes) and the number of
physical pages currently held by buffers of this domain. -/
structure DmaState where
  iovad : IovaDomain
  mapped : List (Nat × Nat)
  pagesHeld : Nat
deriving DecidableEq, Repr

/-- Modelled from the spec: the backend iommu_map_sg call (drivers/iommu/iommu.c
and the IOMMU driver, not among the translated source files).  Per the
specification it returns the number of bytes mapped; per the specification's
required invariant for map_segments, a partial map is undone by the backend
before returning, so fewer bytes than requested leaves no residual mapping. -/
def iommu_map_sg (mapBytes : Nat) (st : DmaState) (addr size : Nat) :
    Nat × DmaState :=
  if mapBytes < size then (mapBytes, st)
  else (size, { st with mapped := (addr, size) :: st.mapped })

/-- Modelled from the spec: the backend iommu_unmap call (not among the
translated source files) returns the number of bytes unmapped; when it unmaps
the full range, the mapping at that address is gone. -/
def iommu_unmap (unmapBytes : Nat) (st : DmaState) (addr size : Nat) :
    Nat × DmaState :=
  if unmapBytes < size then (unmapBytes, st)
  else (unmapBytes, { st with mapped := st.mapped.filter fun m => decide (m.1 ≠ addr) })

/-- Embedding of iommu_dma_alloc (source lines 322-375).  pshift is PAGE_SHIFT;
pagesOk stands for the success of __iommu_dma_alloc_pages, sgOk for the success
of sg_alloc_table_from_pages, mapBytes is the byte count the backend map_sg
call reports, and limitPfn the device dma mask in granule frames.  Returns the
function result (page count stands in for the page array, none for NULL), the
value left in the handle out-argument, and the final state. -/
def iommu_dma_alloc (pshift : Nat) (pagesOk sgOk : Bool) (mapBytes : Nat)
    (limitPfn size : Nat) (st : DmaState) : Option Nat × Nat × DmaState :=
  let count := iommu_dma_alloc_count pshift size
  if pagesOk = false then (none, DMA_ERROR_CODE, st)
  else
    let st1 : DmaState := { st with pagesHeld := st.pagesHeld + count }
    match alloc_iova st.iovad (__alloc_iova_length st.iovad.shift size) limitPfn with
    | none => (none, DMA_ERROR_CODE, { st1 with pagesHeld := st1.pagesHeld - count })
    | some (iv, iovad1) =>
      let st2 : DmaState := { st1 with iovad := iovad1 }
      if sgOk = false then
        (none, DMA_ERROR_CODE,
          { st2 with iovad := __free_iova st2.iovad iv,
                     pagesHeld := st2.pagesHeld - count })
      else
        let dma_addr := iv.1 <<< st.iovad.shift
        let r := iommu_map_sg mapBytes st2 dma_addr size
        if r.1 < size then
          (none, DMA_ERROR_CODE,
            { r.2 with iovad := __free_iova r.2.iovad iv,
                       pagesHeld := r.2.pagesHeld - count })
        else (some count, dma_addr, r.2)

/-- Embedding of __iommu_dma_unmap (source lines 217-228): look up the iova
bound to the address, unmap its full size and BUG if the backend unmapped
fewer bytes.  The none result is the fatal stop (the BUG_ON, or the NULL
dereference when the interval is unknown). -/
def __iommu_dma_unmap (unmapBytes : Nat) (st : DmaState) (dma_addr : Nat) :
    Option DmaState :=
  let shift := st.iovad.shift
  let pfn := dma_addr >>> shift
  match find_iova st.iovad pfn with
  | none => none
  | some iv =>
    let size := iv.2 <<< shift
    let r := iommu_unmap unmapBytes st (pfn <<< shift) size
    if r.1 < size then none
    else some { r.2 with iovad := __free_iova r.2.iovad iv }

/-- Embedding of iommu_dma_free (source lines 295-301): unmap the interval
bound to the handle, release PAGE_ALIGN(size) >> PAGE_SHIFT pages and
invalidate the handle.  Returns none on the fatal unmap-length mismatch,
otherwise the final state and the value written back to the handle. -/
def iommu_dma_free (unmapBytes pshift size handle : Nat) (st : DmaState) :
    Option (DmaState × Nat) :=
  match __iommu_dma_unmap unmapBytes st handle with
  | none => none
  | some st1 =>
    some ({ st1 with pagesHeld := st1.pagesHeld - iommu_dma_alloc_count pshift size },
          DMA_ERROR_CODE)

/-! ## Scatter-gather finalise (source lines 430-470) -/

/-- Sum of the raw field values of a segment, used to bound the arithmetic of
the finalise pass. -/
def segF (s : Sg) : Nat := s.dma_address + s.dma_len + s.length

/-- Sum of segF over a list. -/
def totalF (l : List Sg) : Nat := (l.map segF).sum

/-- Loop of __finalise_sg.  The arguments mirror the C locals: the remaining
segments, dma_addr (u64), seg_len and seg_dma (u32), and the run under
construction held by the seg cursor as an (address, dma length) pair, none
before the first run starts.  Returns the list of restored segments and the
emitted merged runs in order.  Per the source, a segment joins the current run
when the run is non-degenerate (seg_len nonzero), virtually contiguous with
it, the merged seg_len fits max_len and the run does not cross the boundary
mask; otherwise a run with nonzero seg_len is closed and a new one starts in
its slot. -/
def fin_go (mask maxlen : Nat) : List Sg → Nat → Nat → Nat →
    Option (Nat × Nat) → List Sg × List (Nat × Nat)
  | [], _, _, _, cur => ([], cur.toList)
  | s :: rest, a, L, D, cur =>
    let s_offset := s.dma_address % U32
    let s_length := s.dma_len % U32
    let s_dma_len := s.length % U32
    let restored : Sg := { offset := s_offset, length := s_length,
                           dma_address := DMA_ERROR_CODE, dma_len := 0 }
    let cond := decide (L ≠ 0) && decide ((D + L) % U32 = (a + s_offset) % U64)
        && decide ((L + s_dma_len) % U32 ≤ maxlen)
        && decide ((D &&& mask) ≤ (mask + U64 - (L + s_length) % U32) % U64)
    if cond then
      let cur2 := cur.map fun c => (c.1, (c.2 + s_dma_len) % U32)
      let r := fin_go mask maxlen rest ((a + s_dma_len) % U64)
        ((L + s_length) % U32) D cur2
      (restored :: r.1, r.2)
    else
      let newCur := ((a + s_offset) % U64, (s_dma_len + U32 - s_offset) % U32)
      let r := fin_go mask maxlen rest ((a + s_dma_len) % U64)
        ((s_offset + s_length) % U32) ((a + s_offset) % U32) (some newCur)
      if L ≠ 0 then (restored :: r.1, cur.toList ++ r.2)
      else (restored :: r.1, r.2)

/-- Embedding of __finalise_sg (source lines 430-470): restores the CPU
offset/length fields, merges virtually contiguous segments subject to the
device transfer-size and boundary limits, and returns the run count (the C
count variable starts at 1, so an empty list still reports 1). -/
def __finalise_sg (mask maxlen dma_addr : Nat) (l : List Sg) :
    List Sg × List (Nat × Nat) × Nat :=
  let r := fin_go mask maxlen l dma_addr 0 0 none
  (r.1, r.2, if r.2.isEmpty then 1 else r.2.length)

/-- Writing the merged runs back into the dma fields of the leading restored
segments, as the C code does through the seg cursor. -/
def assembleRuns : List Sg → List (Nat × Nat) → List Sg
  | [], _ => []
  | l, [] => l
  | s :: rest, r :: rs =>
      { s with dma_address := r.1, dma_len := r.2 } :: assembleRuns rest rs

/-- Embedding of dev_dma_addr (source lines 170-176) with the device pfn
offset already scaled to bytes; the source BUGs when the address is below the
offset, which the Option models. -/
def dev_dma_addr (devOffset addr : Nat) : Option Nat :=
  if addr < devOffset then none else some (addr - devOffset)

/-- Embedding of iommu_dma_map_sg (source lines 487-535): rewrite the list to
granule alignment, reserve one interval for the padded total, ask the backend
to map (the mapBytes oracle), and either finalise on success or invalidate,
free the interval and return a zero count on failure.  The none result is the
fatal dev_dma_addr BUG. -/
def iommu_dma_map_sg (mapBytes devOffset mask maxlen limitPfn : Nat)
    (l : List Sg) (st : DmaState) : Option (Nat × List Sg × DmaState) :=
  let shift := st.iovad.shift
  let l1 := sg_map_rewrite shift l
  let iova_len := sg_map_iova_len shift l
  match alloc_iova st.iovad (__alloc_iova_length shift iova_len) limitPfn with
  | none => some (0, __invalidate_sg l1, st)
  | some (iv, iovad1) =>
    let st1 : DmaState := { st with iovad := iovad1 }
    let dma_addr := iv.1 <<< shift
    let r := iommu_map_sg mapBytes st1 dma_addr iova_len
    if r.1 < iova_len then
      some (0, __invalidate_sg l1, { r.2 with iovad := __free_iova r.2.iovad iv })
    else
      match dev_dma_addr devOffset dma_addr with
      | none => none
      | some base =>
        let f := __finalise_sg mask maxlen base l1
        some (f.2.2, assembleRuns f.1 f.2.1, r.2)

/-! ## Physical page acquisition (__iommu_dma_alloc_pages, source lines 237-283) -/

/-- Largest allocation order the page allocator serves. -/
def MAX_ORDER : Nat := 11

/-- Outcome of the descending-order inner loop of __iommu_dma_alloc_pages:
either a page was obtained at some order (break), or the loop ran out with
the page pointer NULL, or - when a compound page obtained at order 1 could
not be split - with the page pointer still set although the page was freed.
The second component is the next backend-attempt index. -/
inductive TryRes where
  | got (order t : Nat)
  | stale (t : Nat)
  | nullExit (t : Nat)
deriving DecidableEq, Repr

/-- Inner loop of __iommu_dma_alloc_pages over decreasing orders (source
lines 258-270).  The bigAlloc oracle reports, per backend attempt, whether
alloc_pages succeeded and whether the obtained page was compound; the
splitOk oracle reports whether split_huge_page succeeded. -/
def tryOrders (bigAlloc : Nat → Option Bool) (splitOk : Nat → Bool) :
    Nat → Nat → TryRes
  | 0, t => .nullExit t
  | o + 1, t =>
    match bigAlloc t with
    | none => if o = 0 then .nullExit (t + 1)
              else tryOrders bigAlloc splitOk o (t + 1)
    | some compound =>
      if compound then
        if splitOk t then .got (o + 1) (t + 1)
        else if o = 0 then .stale (t + 1)
        else tryOrders bigAlloc splitOk o (t + 1)
      else .got (o + 1) (t + 1)

/-- Outer loop of __iommu_dma_alloc_pages (source lines 249-281), filling
page descriptors until the requested count is reached.  The fuel argument
only bounds the iteration count; since every iteration consumes at least one
page, a fuel equal to the initial count is never exhausted.  Descriptors are
represented by the attempt index that produced their chunk. -/
def allocPagesGo (big : Nat → Option Bool) (split single : Nat → Bool) :
    Nat → Nat → Nat → Option (List Nat)
  | 0, count, _ => if count = 0 then some [] else none
  | fuel + 1, count, t =>
    if count = 0 then some []
    else
      match tryOrders big split (min (Nat.log2 count) MAX_ORDER) t with
      | .got o t2 =>
        match allocPagesGo big split single fuel (count - 2 ^ o) t2 with
        | none => none
        | some rest => some (List.replicate (2 ^ o) t2 ++ rest)
      | .stale t2 =>
        match allocPagesGo big split single fuel (count - 1) t2 with
        | none => none
        | some rest => some (List.replicate 1 t2 ++ rest)
      | .nullExit t2 =>
        if single t2 then
          match allocPagesGo big split single fuel (count - 1) (t2 + 1) with
          | none => none
          | some rest => some (List.replicate 1 t2 ++ rest)
        else none

/-- Embedding of __iommu_dma_alloc_pages (source lines 237-283): allocate the
descriptor array (the arrayOk oracle covers kzalloc/vzalloc), then fill it
chunk by chunk, preferring the highest order the remaining count allows and
falling back to a single page when no higher-order allocation succeeds. -/
def __iommu_dma_alloc_pages (big : Nat → Option Bool) (split single : Nat → Bool)
    (arrayOk : Bool) (count t : Nat) : Option (List Nat) :=
  if arrayOk = false then none
  else allocPagesGo big split single count count t

/-- Clipped iova_domain produced by a successful aperture-enforcing
iommu_dma_create_domain. -/
def createdIovadClipped (pgsize_bitmap base size as ae : Nat) : IovaDomain :=
  { shift := __ffs pgsize_bitmap
    basePfn := max (max 1 (base >>> __ffs pgsize_bitmap)) (as >>> __ffs pgsize_bitmap)
    endPfn := min ((base + size - 1) >>> __ffs pgsize_bitmap) (ae >>> __ffs pgsize_bitmap)
    allocated := [] }

/-- Iova_domain produced by a successful iommu_dma_create_domain when the
backend does not enforce an aperture. -/
def createdIovadPlain (pgsize_bitmap base size : Nat) : IovaDomain :=
  { shift := __ffs pgsize_bitmap
    basePfn := max 1 (base >>> __ffs pgsize_bitmap)
    endPfn := (base + size - 1) >>> __ffs pgsize_bitmap
    allocated := [] }

/-- Well-formedness of a segment entering the finalise pass with respect to
a device transfer limit: u32-valid fields, the parked offset not exceeding
the granule-padded length, and the padded length net of that offset within
the device limit. -/
def sgFinWF (maxlen : Nat) (s : Sg) : Prop :=
  s.dma_address < U32 ∧ s.dma_len < U32 ∧ s.length < U32 ∧
  s.dma_address ≤ s.length ∧ s.length - s.dma_address ≤ maxlen

instance (maxlen : Nat) (s : Sg) : Decidable (sgFinWF maxlen s) := by
  unfold sgFinWF; infer_instance

/-! ## Helper lemmas -/

theorem iova_align_shift_mul (shift size : Nat) :
    (iova_align shift size >>> shift) * 2 ^ shift = iova_align shift size := by
  rw [Nat.shiftRight_eq_div_pow, iova_align,
    Nat.mul_div_cancel _ (Nat.pos_pow_of_pos shift (by omega))]

theorem searchFree_ge (allocated : List (Nat × Nat)) (len : Nat) :
    ∀ fuel start pfn, searchFree allocated len start fuel = some pfn → start ≤ pfn := by
  intro fuel
  induction fuel with
  | zero => intro start pfn h; simp [searchFree] at h
  | succ n ih =>
    intro start pfn h
    rw [searchFree] at h
    split at h
    · injection h with h; omega
    · have := ih (start + 1) pfn h; omega

theorem alloc_iova_some {d : IovaDomain} {len limitPfn : Nat} {iv : Nat × Nat}
    {d2 : IovaDomain} (h : alloc_iova d len limitPfn = some (iv, d2)) :
    iv.2 = len ∧ d.basePfn ≤ iv.1 ∧
      d2 = { d with allocated := iv :: d.allocated } := by
  rw [alloc_iova] at h
  split at h
  · exact absurd h (by simp)
  · split at h
    · exact absurd h (by simp)
    · rcases hs : searchFree d.allocated len d.basePfn
        (min d.endPfn limitPfn + 2 - (d.basePfn + len)) with _ | pfn
      · rw [hs] at h; exact absurd h (by simp)
      · rw [hs] at h
        injection h with h
        have hge := searchFree_ge d.allocated len _ _ _ hs
        cases h
        exact ⟨rfl, hge, rfl⟩

/-! ## Claim C10 -/

/-- C10: dma_direction_to_prot returns IOMMU_CACHE when the master is
coherent (otherwise 0), OR-ed with IOMMU_READ and IOMMU_WRITE for
DMA_BIDIRECTIONAL, with IOMMU_READ alone for DMA_TO_DEVICE and with
IOMMU_WRITE alone for DMA_FROM_DEVICE; for any other direction value it
returns 0 regardless of the coherent flag. -/
theorem dma_direction_to_prot_spec (coherent : Bool) :
    dma_direction_to_prot .DMA_BIDIRECTIONAL coherent
      = ((if coherent then IOMMU_CACHE else 0) ||| IOMMU_READ ||| IOMMU_WRITE) ∧
    dma_direction_to_prot .DMA_TO_DEVICE coherent
      = ((if coherent then IOMMU_CACHE else 0) ||| IOMMU_READ) ∧
    dma_direction_to_prot .DMA_FROM_DEVICE coherent
      = ((if coherent then IOMMU_CACHE else 0) ||| IOMMU_WRITE) ∧
    dma_direction_to_prot .DMA_NONE coherent = 0 := by
  cases coherent <;> exact ⟨rfl, rfl, rfl, rfl⟩

/-! ## Claim C2 -/

/-- C2 counterexample: attaching with a failing backend bind (error -22)
leaves the domain reference count incremented (2 instead of the prior 1),
so the speculative increment is not rolled back as the claim states. -/
theorem iommu_dma_attach_device_refcount_not_restored :
    iommu_dma_attach_device (-22) 5 1 none = (-22, 2, none) ∧ (2 : Nat) ≠ 1 :=
  ⟨rfl, by decide⟩

/-- C2 (amended): when the backend bind fails, iommu_dma_attach_device
returns the error code and leaves the device's recorded domain unchanged,
but the speculative reference-count increment is NOT rolled back: the
domain's count ends one higher than before the call. -/
theorem iommu_dma_attach_device_failure_behavior (ret : Int) (domId rc : Nat)
    (dd : Option Nat) (h : ret ≠ 0) :
    iommu_dma_attach_device ret domId rc dd = (ret, rc + 1, dd) := by
  simp [iommu_dma_attach_device, h]

/-- Witness for the amended C2 theorem at a concrete failing bind. -/
theorem iommu_dma_attach_device_failure_behavior_w :
    iommu_dma_attach_device (-19) 3 7 (some 2) = (-19, 8, some 2) :=
  iommu_dma_attach_device_failure_behavior (-19) 3 7 (some 2) (by decide)

/-! ## Claim C6 -/

/-- C6 counterexample: with IOVA granule 2^13 and CPU page size 2^12, a
4097-byte allocation acquires 2 pages but reserves an interval of 1 granule
unit, so the page count does not equal the interval length in granule units. -/
theorem alloc_count_granule_mismatch :
    alloc_iova { shift := 13, basePfn := 1, endPfn := 8, allocated := [] }
        (__alloc_iova_length 13 4097) 8
      = some ((1, 1),
          { shift := 13, basePfn := 1, endPfn := 8, allocated := [(1, 1)] }) ∧
    iommu_dma_alloc_count 12 4097 = 2 ∧ (2 : Nat) ≠ 1 :=
  ⟨by decide, by decide, by decide⟩

/-- C6 (amended): a buffer allocation reserves an interval whose byte length
is the requested size rounded up to the IOVA granule, and acquires
PAGE_ALIGN(size) >> PAGE_SHIFT pages; the page count equals the interval
length in granule units whenever the granule equals the CPU page size (it
can differ otherwise). -/
theorem iommu_dma_alloc_size_alignment (shift pshift size limitPfn : Nat)
    (d : IovaDomain) (iv : Nat × Nat) (d2 : IovaDomain)
    (halloc : alloc_iova d (__alloc_iova_length shift size) limitPfn
      = some (iv, d2)) :
    iv.2 * 2 ^ shift = iova_align shift size ∧
    iommu_dma_alloc_count pshift size * 2 ^ pshift = iova_align pshift size ∧
    (pshift = shift → iommu_dma_alloc_count pshift size = iv.2) := by
  obtain ⟨hlen, -, -⟩ := alloc_iova_some halloc
  refine ⟨?_, ?_, ?_⟩
  · rw [hlen, __alloc_iova_length, iova_align_shift_mul]
  · rw [iommu_dma_alloc_count, iova_align_shift_mul]
  · intro hp
    rw [hlen, hp, iommu_dma_alloc_count, __alloc_iova_length]

/-- Witness for the amended C6 theorem: granule and page size both 2^12,
size 4097, interval (1, 2). -/
theorem iommu_dma_alloc_size_alignment_w :
    (1, 2).2 * 2 ^ 12 = iova_align 12 4097 ∧
    iommu_dma_alloc_count 12 4097 * 2 ^ 12 = iova_align 12 4097 ∧
    (12 = 12 → iommu_dma_alloc_count 12 4097 = (1, 2).2) :=
  iommu_dma_alloc_size_alignment 12 12 4097 8
    { shift := 12, basePfn := 1, endPfn := 8, allocated := [] } (1, 2)
    { shift := 12, basePfn := 1, endPfn := 8, allocated := [(1, 2)] } (by decide)

/-! ## Claim C5 -/

theorem aperture_empty_iff (base size as ae : Nat) (hsz : 0 < size) (hap : as ≤ ae) :
    (¬ ∃ x, (base ≤ x ∧ x < base + size) ∧ as ≤ x ∧ x ≤ ae) ↔
      (ae < base ∨ base + size ≤ as) := by
  constructor
  · intro h
    by_contra hc
    push_neg at hc
    exact h ⟨max base as, ⟨le_max_left _ _, by omega⟩, le_max_right _ _, by omega⟩
  · rintro (h | h) ⟨x, ⟨hx1, hx2⟩, hx3, hx4⟩ <;> omega

/-- C5: iommu_dma_create_domain fails exactly when the backend enforces an
aperture and the requested range does not intersect it; otherwise (under
successful allocations, a nonzero size that does not wrap u64, and a
well-formed aperture) it clips the working pfn range to the intersection,
uses the granule 1 shifted by the lowest set bit of the page-size bitmap,
and returns a domain with reference count 1. -/
theorem iommu_dma_create_domain_spec (pgsize_bitmap : Nat) (geo : IommuGeometry)
    (base size : Nat) (hsz : 0 < size) (hov : base + size < U64)
    (hap : geo.aperture_start ≤ geo.aperture_end) :
    (geo.force_aperture = true →
      ((¬ ∃ x, (base ≤ x ∧ x < base + size) ∧
          geo.aperture_start ≤ x ∧ x ≤ geo.aperture_end) →
        iommu_dma_create_domain true true true pgsize_bitmap geo base size
          = none) ∧
      ((∃ x, (base ≤ x ∧ x < base + size) ∧
          geo.aperture_start ≤ x ∧ x ≤ geo.aperture_end) →
        iommu_dma_create_domain true true true pgsize_bitmap geo base size =
          some { iovad := createdIovadClipped pgsize_bitmap base size
                   geo.aperture_start geo.aperture_end
                 refcount := 1 })) ∧
    (geo.force_aperture = false →
      iommu_dma_create_domain true true true pgsize_bitmap geo base size =
        some { iovad := createdIovadPlain pgsize_bitmap base size
               refcount := 1 }) ∧
    (∀ dom, iommu_dma_create_domain true true true pgsize_bitmap geo base size
        = some dom →
      dom.iovad.granule = 1 <<< __ffs pgsize_bitmap ∧ dom.refcount = 1) := by
  have hmod2 : (base + size) % U64 = base + size := Nat.mod_eq_of_lt hov
  have hmod : (base + size + U64 - 1) % U64 = base + size - 1 := by
    unfold U64 at hov ⊢; omega
  have hne : ((true = false) = False) := by simp
  refine ⟨fun hforce => ⟨fun hemp => ?_, fun hint => ?_⟩, fun hforce => ?_,
    fun dom hdom => ?_⟩
  · have hcond := (aperture_empty_iff base size _ _ hsz hap).mp hemp
    simp [iommu_dma_create_domain, hforce, hmod2]
    omega
  · have hcond : ¬ (geo.aperture_end < base ∨
        base + size ≤ geo.aperture_start) := by
      intro hc
      exact ((aperture_empty_iff base size _ _ hsz hap).mpr hc) hint
    simp [iommu_dma_create_domain, hforce, hmod2, hmod, createdIovadClipped]
    omega
  · simp [iommu_dma_create_domain, hforce, hmod2, hmod, createdIovadPlain]
  · rw [iommu_dma_create_domain] at hdom
    simp only [hne, if_false] at hdom
    split at hdom
    · exact absurd hdom (by simp)
    · injection hdom with hdom
      subst hdom
      exact ⟨by simp [IovaDomain.granule, Nat.shiftLeft_eq], rfl⟩

/-- Witness for the C5 theorem at a concrete aperture-enforcing backend:
bitmap 4096 (granule order 12), range [0, 2^20), aperture [0, 2^32]. -/
theorem iommu_dma_create_domain_spec_w :
    iommu_dma_create_domain true true true 4096
        { force_aperture := true, aperture_start := 0, aperture_end := 4294967296 }
        0 1048576
      = some { iovad := createdIovadClipped 4096 0 1048576 0 4294967296
               refcount := 1 } :=
  ((iommu_dma_create_domain_spec 4096
      { force_aperture := true, aperture_start := 0, aperture_end := 4294967296 }
      0 1048576 (by decide) (by decide) (by decide)).1 rfl).2
    ⟨0, ⟨by decide, by decide⟩, by decide, by decide⟩

/-! ## Claim C1 -/

/-- C1: when the backend map_sg call reports fewer bytes than the requested
size (all earlier steps having succeeded), iommu_dma_alloc returns NULL with
the handle left at the error sentinel, and the final state equals the
initial state: the reserved interval is back in the free pool, all acquired
pages are released and, per the spec-modelled backend invariant on partial
maps, no bytes remain mapped - no partially allocated buffer state is
observable. -/
theorem iommu_dma_alloc_partial_map_rolls_back (pshift limitPfn size mapBytes : Nat)
    (st : DmaState) (iv : Nat × Nat) (d2 : IovaDomain)
    (halloc : alloc_iova st.iovad (__alloc_iova_length st.iovad.shift size) limitPfn
      = some (iv, d2))
    (hmap : mapBytes < size) :
    iommu_dma_alloc pshift true true mapBytes limitPfn size st
      = (none, DMA_ERROR_CODE, st) := by
  obtain ⟨-, -, hd2⟩ := alloc_iova_some halloc
  subst hd2
  have hne : ((true = false) = False) := by simp
  rw [iommu_dma_alloc]
  simp only [hne, if_false, halloc]
  simp only [iommu_map_sg, if_pos hmap]
  simp [__free_iova, List.erase_cons_head, Nat.add_sub_cancel, hmap]

/-- Witness for the C1 theorem: a concrete domain, a 4096-byte request and a
backend that maps 0 of the 4096 requested bytes. -/
theorem iommu_dma_alloc_partial_map_rolls_back_w :
    iommu_dma_alloc 12 true true 0 4 4096
        { iovad := { shift := 12, basePfn := 1, endPfn := 4, allocated := [] }
          mapped := []
          pagesHeld := 0 }
      = (none, DMA_ERROR_CODE,
          { iovad := { shift := 12, basePfn := 1, endPfn := 4, allocated := [] }
            mapped := []
            pagesHeld := 0 }) :=
  iommu_dma_alloc_partial_map_rolls_back 12 4 4096 0
    { iovad := { shift := 12, basePfn := 1, endPfn := 4, allocated := [] }
      mapped := []
      pagesHeld := 0 }
    (1, 1) { shift := 12, basePfn := 1, endPfn := 4, allocated := [(1, 1)] }
    (by decide) (by decide)

/-! ## Claim C7 -/

/-- C7: iommu_dma_free looks up the interval bound to the handle and unmaps
its full size; if the backend unmaps fewer bytes the execution stops fatally
(the BUG_ON, modelled as none), otherwise the interval is returned to the
free pool, PAGE_ALIGN(size) >> PAGE_SHIFT pages are released, the mapping at
the interval address is gone and the handle is set to DMA_ERROR_CODE. -/
theorem iommu_dma_free_unmap_spec (unmapBytes pshift size handle : Nat)
    (st : DmaState) (iv : Nat × Nat)
    (hfind : find_iova st.iovad (handle >>> st.iovad.shift) = some iv) :
    (unmapBytes < iv.2 <<< st.iovad.shift →
      iommu_dma_free unmapBytes pshift size handle st = none) ∧
    (iv.2 <<< st.iovad.shift ≤ unmapBytes →
      iommu_dma_free unmapBytes pshift size handle st =
        some ({ iovad := __free_iova st.iovad iv
                mapped := st.mapped.filter fun m =>
                  decide (m.1 ≠ (handle >>> st.iovad.shift) <<< st.iovad.shift)
                pagesHeld := st.pagesHeld - iommu_dma_alloc_count pshift size },
              DMA_ERROR_CODE)) := by
  constructor
  · intro hlt
    rw [iommu_dma_free, __iommu_dma_unmap, hfind]
    simp only [iommu_unmap, if_pos hlt]
  · intro hge
    have hnlt : ¬ unmapBytes < iv.2 <<< st.iovad.shift := by omega
    rw [iommu_dma_free, __iommu_dma_unmap, hfind]
    simp only [iommu_unmap, if_neg hnlt]

/-- Witness for the C7 theorem: a domain holding interval (1, 1) with a
mapping at address 4096, freed through handle 4096, with a backend that
unmaps 0 bytes (fatal) and one that unmaps the full 4096 (clean free). -/
theorem iommu_dma_free_unmap_spec_w :
    iommu_dma_free 0 12 4096 4096
        { iovad := { shift := 12, basePfn := 1, endPfn := 8, allocated := [(1, 1)] }
          mapped := [(4096, 4096)]
          pagesHeld := 1 }
      = none ∧
    iommu_dma_free 4096 12 4096 4096
        { iovad := { shift := 12, basePfn := 1, endPfn := 8, allocated := [(1, 1)] }
          mapped := [(4096, 4096)]
          pagesHeld := 1 }
      = some ({ iovad := { shift := 12, basePfn := 1, endPfn := 8, allocated := [] }
                mapped := []
                pagesHeld := 0 },
              DMA_ERROR_CODE) := by
  constructor
  · exact (iommu_dma_free_unmap_spec 0 12 4096 4096
      { iovad := { shift := 12, basePfn := 1, endPfn := 8, allocated := [(1, 1)] }
        mapped := [(4096, 4096)]
        pagesHeld := 1 } (1, 1) (by decide)).1 (by decide)
  · have h := (iommu_dma_free_unmap_spec 4096 12 4096 4096
      { iovad := { shift := 12, basePfn := 1, endPfn := 8, allocated := [(1, 1)] }
        mapped := [(4096, 4096)]
        pagesHeld := 1 } (1, 1) (by decide)).2 (by decide)
    rw [h]
    decide

/-! ## Claim C9 -/

/-- C9: every successfully created domain initializes its IOVA allocator with
a base pfn of at least 1 (the max with 1 in iommu_dma_create_domain, possibly
raised further by the aperture), and with the spec-modelled allocator every
interval returned on such a domain starts at or above the base pfn, hence at
a strictly positive byte address - IOVA 0 lies in no allocatable interval and
is never produced as a mapping address. -/
theorem iova_zero_never_allocatable (dso daok iok : Bool) (bm : Nat)
    (geo : IommuGeometry) (base size : Nat) (dom : IommuDmaDomain)
    (hc : iommu_dma_create_domain dso daok iok bm geo base size = some dom) :
    1 ≤ dom.iovad.basePfn ∧
    ∀ (alloc : List (Nat × Nat)) (len limitPfn : Nat) (iv : Nat × Nat)
      (d2 : IovaDomain),
      alloc_iova { dom.iovad with allocated := alloc } len limitPfn
        = some (iv, d2) →
      1 ≤ iv.1 ∧ 0 < iv.1 <<< dom.iovad.shift := by
  have hbase : 1 ≤ dom.iovad.basePfn := by
    rw [iommu_dma_create_domain] at hc
    cases dso
    · simp at hc
    cases daok
    · simp at hc
    cases iok
    · simp at hc
    split at hc
    · simp at hc
    split at hc
    · simp at hc
    injection hc with hc
    subst hc
    simp only
    split <;> omega
  refine ⟨hbase, fun alloc len limitPfn iv d2 ha => ?_⟩
  obtain ⟨-, hge, -⟩ := alloc_iova_some ha
  simp only at hge
  refine ⟨by omega, ?_⟩
  rw [Nat.shiftLeft_eq]
  exact Nat.mul_pos (by omega) (Nat.pos_pow_of_pos _ (by omega))

/-- Witness for the C9 theorem: the domain created from bitmap 4096 over
[0, 2^20) clipped to aperture [0, 2^32], and a 2-granule allocation on it. -/
theorem iova_zero_never_allocatable_w :
    1 ≤ ({ iovad := { shift := 12, basePfn := 1, endPfn := 255, allocated := [] }
           refcount := 1 } : IommuDmaDomain).iovad.basePfn ∧
    (1 ≤ ((1, 2) : Nat × Nat).1 ∧
      0 < ((1, 2) : Nat × Nat).1 <<<
        ({ iovad := { shift := 12, basePfn := 1, endPfn := 255, allocated := [] }
           refcount := 1 } : IommuDmaDomain).iovad.shift) := by
  have h := iova_zero_never_allocatable true true true 4096
    { force_aperture := true, aperture_start := 0, aperture_end := 4294967296 }
    0 1048576
    { iovad := { shift := 12, basePfn := 1, endPfn := 255, allocated := [] }
      refcount := 1 } (by decide)
  exact ⟨h.1, h.2 [] 2 255 (1, 2)
    { shift := 12, basePfn := 1, endPfn := 255, allocated := [(1, 2)] } (by decide)⟩

/-! ## Claim C3 -/

theorem invalidate_rewrite_seg (shift : Nat) (s : Sg) (ho : s.offset < U32)
    (hl0 : 0 < s.length) (hl : s.length < U32) :
    __invalidate_sg_seg (sg_map_rewrite_seg shift s) = sg_reset_dma s := by
  have hoU : s.offset % U64 = s.offset := by
    unfold U32 U64 at *; exact Nat.mod_eq_of_lt (by omega)
  have hlU : s.length % U32 = s.length := Nat.mod_eq_of_lt hl
  have hoU32 : s.offset % U32 = s.offset := Nat.mod_eq_of_lt ho
  have hne : s.offset ≠ DMA_ERROR_CODE := by
    unfold DMA_ERROR_CODE U64 U32 at *; omega
  have hlz : s.length ≠ 0 := by omega
  simp [__invalidate_sg_seg, sg_map_rewrite_seg, sg_reset_dma, hoU, hlU, hoU32,
    hne, hlz]

theorem invalidate_rewrite_list (shift : Nat) (l : List Sg)
    (hwf : ∀ s ∈ l, s.offset < U32 ∧ 0 < s.length ∧ s.length < U32) :
    __invalidate_sg (sg_map_rewrite shift l) = l.map sg_reset_dma := by
  induction l with
  | nil => rfl
  | cons s rest ih =>
    have hs := hwf s (by simp)
    simp only [sg_map_rewrite, List.map_cons, __invalidate_sg]
    rw [invalidate_rewrite_seg shift s hs.1 hs.2.1 hs.2.2]
    have ht := ih fun t htm => hwf t (by simp [htm])
    simp only [sg_map_rewrite, __invalidate_sg] at ht
    rw [ht]

/-- C3 counterexample: a zero-length segment with offset 1 is not restored by
the invalidate pass: the rewrite pads its length field to one granule (4096)
and the invalidate keeps the padded value because the shadow dma_len is 0, so
invalidate is not a left inverse of the rewrite on every input list. -/
theorem invalidate_sg_not_left_inverse_zero_length :
    __invalidate_sg (sg_map_rewrite 12
        [{ offset := 1, length := 0, dma_address := 0, dma_len := 0 }])
      = [{ offset := 1, length := 4096, dma_address := DMA_ERROR_CODE,
           dma_len := 0 }] ∧
    ({ offset := 1, length := 4096, dma_address := DMA_ERROR_CODE,
       dma_len := 0 } : Sg)
      ≠ { offset := 1, length := 0, dma_address := DMA_ERROR_CODE, dma_len := 0 } :=
  ⟨by decide, by decide⟩

/-- C3 (amended): for every segment list whose segments have nonzero length
(and u32-valid offset and length fields), the invalidate pass restores every
segment's original offset and length exactly while resetting the dma fields
to the error sentinel and zero - it is a left inverse of the granule-aligning
rewrite on such lists - and on both failure paths of iommu_dma_map_sg (IOVA
exhaustion, or the backend mapping fewer bytes than the padded total) the
call returns a count of zero with the segments so restored and the domain
state unchanged.  Zero-length segments are excluded (see the counterexample:
their padded length is not restored). -/
theorem iommu_dma_map_sg_failure_restores :
    (∀ (shift : Nat) (l : List Sg),
      (∀ s ∈ l, s.offset < U32 ∧ 0 < s.length ∧ s.length < U32) →
      __invalidate_sg (sg_map_rewrite shift l) = l.map sg_reset_dma) ∧
    (∀ (mapBytes devOffset mask maxlen limitPfn : Nat) (l : List Sg)
        (st : DmaState),
      (∀ s ∈ l, s.offset < U32 ∧ 0 < s.length ∧ s.length < U32) →
      (alloc_iova st.iovad
          (__alloc_iova_length st.iovad.shift (sg_map_iova_len st.iovad.shift l))
          limitPfn = none →
        iommu_dma_map_sg mapBytes devOffset mask maxlen limitPfn l st
          = some (0, l.map sg_reset_dma, st)) ∧
      (∀ (iv : Nat × Nat) (d2 : IovaDomain),
        alloc_iova st.iovad
          (__alloc_iova_length st.iovad.shift (sg_map_iova_len st.iovad.shift l))
          limitPfn = some (iv, d2) →
        mapBytes < sg_map_iova_len st.iovad.shift l →
        iommu_dma_map_sg mapBytes devOffset mask maxlen limitPfn l st
          = some (0, l.map sg_reset_dma, st))) := by
  refine ⟨invalidate_rewrite_list, ?_⟩
  intro mapBytes devOffset mask maxlen limitPfn l st hwf
  constructor
  · intro halloc
    rw [iommu_dma_map_sg, halloc]
    rw [invalidate_rewrite_list _ _ hwf]
  · intro iv d2 halloc hmap
    obtain ⟨-, -, hd2⟩ := alloc_iova_some halloc
    subst hd2
    rw [iommu_dma_map_sg, halloc]
    simp only [iommu_map_sg, if_pos hmap]
    rw [invalidate_rewrite_list _ _ hwf]
    simp [__free_iova, List.erase_cons_head]

/-- Witness for the C3 theorem: the left-inverse conjunct applied to a
one-segment list with nonzero length. -/
theorem iommu_dma_map_sg_failure_restores_w :
    __invalidate_sg (sg_map_rewrite 12
        [{ offset := 1, length := 100, dma_address := 7, dma_len := 8 }])
      = [{ offset := 1, length := 100, dma_address := DMA_ERROR_CODE,
           dma_len := 0 }] := by
  rw [iommu_dma_map_sg_failure_restores.1 12
    [{ offset := 1, length := 100, dma_address := 7, dma_len := 8 }] (by decide)]
  decide

/-! ## Claim C8 -/

theorem tryOrders_le (big : Nat → Option Bool) (sp : Nat → Bool) :
    ∀ o t o2 t2, tryOrders big sp o t = .got o2 t2 → o2 ≤ o := by
  intro o
  induction o with
  | zero => intro t o2 t2 h; rw [tryOrders] at h; exact absurd h (by simp)
  | succ n ih =>
    intro t o2 t2 h
    rw [tryOrders] at h
    rcases hb : big t with _ | compound
    · simp only [hb] at h
      split at h
      · exact absurd h (by simp)
      · exact le_trans (ih (t + 1) o2 t2 h) (by omega)
    · simp only [hb] at h
      split at h
      · split at h
        · injection h with h1 h2; omega
        · split at h
          · exact absurd h (by simp)
          · exact le_trans (ih (t + 1) o2 t2 h) (by omega)
      · injection h with h1 h2; omega

theorem allocPagesGo_length (big : Nat → Option Bool) (sp sg : Nat → Bool) :
    ∀ fuel count t l, allocPagesGo big sp sg fuel count t = some l →
      l.length = count := by
  intro fuel
  induction fuel with
  | zero =>
    intro count t l h
    rw [allocPagesGo] at h
    split at h
    · injection h with h; subst h; simp [*]
    · exact absurd h (by simp)
  | succ n ih =>
    intro count t l h
    rw [allocPagesGo] at h
    split at h
    · injection h with h; subst h; simp [*]
    · rename_i h0
      rcases htr : tryOrders big sp (min (Nat.log2 count) MAX_ORDER) t
        with ⟨o, t2⟩ | ⟨t2⟩ | ⟨t2⟩ <;> simp only [htr] at h
      · have ho := tryOrders_le big sp _ _ _ _ htr
        have hpow : 2 ^ o ≤ count := by
          calc 2 ^ o ≤ 2 ^ Nat.log2 count :=
                Nat.pow_le_pow_right (by omega) (by omega)
            _ ≤ count := Nat.log2_self_le h0
        rcases hrec : allocPagesGo big sp sg n (count - 2 ^ o) t2 with _ | rest
          <;> simp only [hrec] at h
        · exact absurd h (by simp)
        · injection h with h
          subst h
          have := ih (count - 2 ^ o) t2 rest hrec
          simp [this]
          omega
      · rcases hrec : allocPagesGo big sp sg n (count - 1) t2 with _ | rest
          <;> simp only [hrec] at h
        · exact absurd h (by simp)
        · injection h with h
          subst h
          have := ih (count - 1) t2 rest hrec
          simp [this]
          omega
      · split at h
        · rcases hrec : allocPagesGo big sp sg n (count - 1) (t2 + 1) with _ | rest
            <;> simp only [hrec] at h
          · exact absurd h (by simp)
          · injection h with h
            subst h
            have := ih (count - 1) (t2 + 1) rest hrec
            simp [this]
            omega
        · exact absurd h (by simp)

theorem allocPagesGo_total (big : Nat → Option Bool) (sp sg : Nat → Bool)
    (hsg : ∀ u, sg u = true) :
    ∀ fuel count t, count ≤ fuel →
      ∃ l, allocPagesGo big sp sg fuel count t = some l := by
  intro fuel
  induction fuel with
  | zero =>
    intro count t hc
    exact ⟨[], by rw [allocPagesGo]; simp [Nat.le_zero.mp hc]⟩
  | succ n ih =>
    intro count t hc
    by_cases h0 : count = 0
    · exact ⟨[], by rw [allocPagesGo]; simp [h0]⟩
    · rcases htr : tryOrders big sp (min (Nat.log2 count) MAX_ORDER) t
        with ⟨o, t2⟩ | ⟨t2⟩ | ⟨t2⟩
      · have hj : 0 < 2 ^ o := Nat.pos_pow_of_pos o (by omega)
        obtain ⟨rest, hrest⟩ := ih (count - 2 ^ o) t2 (by omega)
        exact ⟨List.replicate (2 ^ o) t2 ++ rest,
          by rw [allocPagesGo]; simp [h0, htr, hrest]⟩
      · obtain ⟨rest, hrest⟩ := ih (count - 1) t2 (by omega)
        exact ⟨t2 :: rest, by rw [allocPagesGo]; simp [h0, htr, hrest]⟩
      · obtain ⟨rest, hrest⟩ := ih (count - 1) (t2 + 1) (by omega)
        exact ⟨t2 :: rest, by rw [allocPagesGo]; simp [h0, htr, hrest, hsg t2]⟩

/-- C8: physical page acquisition never fails solely because higher-order
contiguous chunks are unavailable: whatever the higher-order oracle reports,
if the descriptor array allocates and every single-page allocation succeeds
then __iommu_dma_alloc_pages succeeds, and every successful result fills
exactly the requested number of page descriptors. -/
theorem iommu_dma_alloc_pages_fallback (big : Nat → Option Bool)
    (sp sg : Nat → Bool) (arrayOk : Bool) (count t : Nat) :
    ((∀ u, sg u = true) →
      ∃ l, __iommu_dma_alloc_pages big sp sg true count t = some l ∧
        l.length = count) ∧
    (∀ l, __iommu_dma_alloc_pages big sp sg arrayOk count t = some l →
      l.length = count) := by
  constructor
  · intro hsg
    obtain ⟨l, hl⟩ := allocPagesGo_total big sp sg hsg count count t le_rfl
    exact ⟨l, by rw [__iommu_dma_alloc_pages]; simpa using hl,
      allocPagesGo_length big sp sg count count t l hl⟩
  · intro l h
    rw [__iommu_dma_alloc_pages] at h
    split at h
    · exact absurd h (by simp)
    · exact allocPagesGo_length big sp sg count count t l h

/-- Witness for the C8 theorem: every higher-order allocation fails, single
pages always succeed, three pages requested - the result is a 3-descriptor
success. -/
theorem iommu_dma_alloc_pages_fallback_w :
    (__iommu_dma_alloc_pages (fun _ => none) (fun _ => false) (fun _ => true)
        true 3 0).isSome = true ∧
    (__iommu_dma_alloc_pages (fun _ => none) (fun _ => false) (fun _ => true)
        true 3 0).map List.length = some 3 := by
  obtain ⟨l, hl, hlen⟩ := (iommu_dma_alloc_pages_fallback (fun _ => none)
    (fun _ => false) (fun _ => true) true 3 0).1 (fun u => rfl)
  rw [hl]
  simp [hlen]

/-! ## Claim C4 -/

theorem fin_go_bound (mask maxlen B : Nat) (hB : B < U32) :
    ∀ (l : List Sg) (a L D : Nat) (cur : Option (Nat × Nat)),
      (∀ s ∈ l, sgFinWF maxlen s) →
      a + L + totalF l ≤ B →
      D ≤ a →
      (∀ c, cur = some c → D + c.2 = a ∧ c.2 ≤ maxlen) →
      ∀ r ∈ (fin_go mask maxlen l a L D cur).2, r.2 ≤ maxlen := by
  intro l
  induction l with
  | nil =>
    intro a L D cur hwf htot hD hcur r hr
    rw [fin_go] at hr
    rcases cur with _ | c
    · simp at hr
    · have hrc : r = c := by simpa using hr
      rw [hrc]
      exact (hcur c rfl).2
  | cons s rest ih =>
    intro a L D cur hwf htot hD hcur r hr
    obtain ⟨hf1, hf2, hf3, hf4, hf5⟩ := hwf s (by simp)
    have hwfr : ∀ t ∈ rest, sgFinWF maxlen t := fun t ht => hwf t (by simp [ht])
    have htotc : totalF (s :: rest) = segF s + totalF rest := by
      simp [totalF]
    have hsub : a + L + (s.dma_address + s.dma_len + s.length) + totalF rest ≤ B := by
      rw [htotc] at htot
      unfold segF at htot
      omega
    have m1 : s.dma_address % U32 = s.dma_address := Nat.mod_eq_of_lt hf1
    have m2 : s.dma_len % U32 = s.dma_len := Nat.mod_eq_of_lt hf2
    have m3 : s.length % U32 = s.length := Nat.mod_eq_of_lt hf3
    have h32 : (U32 : Nat) < U64 := by unfold U32 U64; omega
    have e5 : (a + s.length) % U64 = a + s.length := Nat.mod_eq_of_lt (by omega)
    rw [fin_go] at hr
    simp only [m1, m2, m3, e5] at hr
    split at hr
    · rename_i hcond
      simp only [Bool.and_eq_true, decide_eq_true_eq] at hcond
      obtain ⟨⟨⟨hL0, hEq⟩, hLe⟩, -⟩ := hcond
      have e1 : (D + L) % U32 = D + L := Nat.mod_eq_of_lt (by omega)
      have e2 : (a + s.dma_address) % U64 = a + s.dma_address :=
        Nat.mod_eq_of_lt (by omega)
      rw [e1, e2] at hEq
      have e3 : (L + s.length) % U32 = L + s.length := Nat.mod_eq_of_lt (by omega)
      rw [e3] at hLe
      have e4 : (L + s.dma_len) % U32 = L + s.dma_len := Nat.mod_eq_of_lt (by omega)
      rw [e4] at hr
      refine ih (a + s.length) (L + s.dma_len) D
        (cur.map fun c => (c.1, (c.2 + s.length) % U32)) hwfr (by omega) (by omega)
        ?_ r hr
      intro c2 hc2
      rcases cur with _ | c
      · simp at hc2
      · obtain ⟨hc, hcm⟩ := hcur c rfl
        have em : (c.2 + s.length) % U32 = c.2 + s.length :=
          Nat.mod_eq_of_lt (by omega)
        have hc2r : c2 = (c.1, (c.2 + s.length) % U32) := by simpa using hc2.symm
        rw [hc2r, em]
        constructor <;> simp <;> omega
    · have e6 : (s.length + U32 - s.dma_address) % U32 = s.length - s.dma_address := by
        have hrw : s.length + U32 - s.dma_address = (s.length - s.dma_address) + U32 := by
          omega
        rw [hrw, Nat.add_mod_right]
        exact Nat.mod_eq_of_lt (by omega)
      have e7 : (a + s.dma_address) % U64 = a + s.dma_address :=
        Nat.mod_eq_of_lt (by omega)
      have e8 : (a + s.dma_address) % U32 = a + s.dma_address :=
        Nat.mod_eq_of_lt (by omega)
      have e9 : (s.dma_address + s.dma_len) % U32 = s.dma_address + s.dma_len :=
        Nat.mod_eq_of_lt (by omega)
      rw [e6, e7, e8, e9] at hr
      have hrec := ih (a + s.length) (s.dma_address + s.dma_len) (a + s.dma_address)
        (some (a + s.dma_address, s.length - s.dma_address)) hwfr (by omega) (by omega)
        (by
          intro c2 hc2
          injection hc2 with hc2
          rw [← hc2]
          constructor <;> simp <;> omega)
      split at hr
      · rcases List.mem_append.mp hr with hmem | hmem
        · rcases cur with _ | c
          · simp at hmem
          · have hrc : r = c := by simpa using hmem
            rw [hrc]
            exact (hcur c rfl).2
        · exact hrec r hmem
      · exact hrec r hr

/-- C4 counterexample: with device max segment size 100, a single rewritten
segment whose padded length is 4096 is emitted by the finalise pass as one
merged segment of dma length 4096, exceeding the limit: the pass bounds only
merges, it never splits an oversized segment. -/
theorem finalise_sg_single_segment_exceeds_max :
    (__finalise_sg (U32 - 1) 100 0
        [{ offset := 0, length := 4096, dma_address := 0, dma_len := 4096 }]).2.1
      = [(0, 4096)] ∧
    ¬ (4096 : Nat) ≤ 100 :=
  ⟨by decide, by decide⟩

/-- C4 (amended): every merged segment emitted by the finalise pass has dma
length at most the device maximum transfer-segment size, provided each input
segment is itself within the limit (its padded length net of its intra-granule
offset is at most max_len, with u32-valid fields) and the running arithmetic
stays below u32; without the per-segment proviso a single oversized segment
is emitted unchanged and exceeds the limit (see the counterexample). -/
theorem finalise_sg_merge_bound (mask maxlen a : Nat) (l : List Sg)
    (hov : a + totalF l < U32)
    (hwf : ∀ s ∈ l, sgFinWF maxlen s) :
    ∀ r ∈ (__finalise_sg mask maxlen a l).2.1, r.2 ≤ maxlen := by
  intro r hr
  refine fin_go_bound mask maxlen (a + totalF l) hov l a 0 0 none hwf (by omega)
    (by omega) (by simp) r ?_
  simpa [__finalise_sg] using hr

/-- Witness for the C4 theorem: two contiguous granule-sized segments under a
limit of 8192 merge into one segment of dma length exactly 8192. -/
theorem finalise_sg_merge_bound_w :
    ((__finalise_sg (U32 - 1) 8192 0
        [{ offset := 0, length := 4096, dma_address := 0, dma_len := 4096 },
         { offset := 0, length := 4096, dma_address := 0, dma_len := 4096 }]).2.1.all
      fun r => decide (r.2 ≤ 8192)) = true := by
  have h := finalise_sg_merge_bound (U32 - 1) 8192 0
    [{ offset := 0, length := 4096, dma_address := 0, dma_len := 4096 },
     { offset := 0, length := 4096, dma_address := 0, dma_len := 4096 }]
    (by decide) (by decide)
  exact List.all_eq_true.mpr fun r hr => decide_eq_true (h r hr)
